import Mathlib

/-!
Shallow embedding of the RBAC and verse-rotation layer of the Bible-App
repository (SQL migrations and stored procedures under `src/supabase/migrations`
and `src/unnamed/part_008`, `part_012`, `part_014`).

Conventions of the embedding:
* SQL tables become lists of structures inside a `DB` record; rows keep the
  source column names where Lean allows it.
* Timestamps are `Nat`; the SQL condition `expires_at > now()` becomes
  `now < expires_at`.
* A stored procedure that can `RAISE` becomes a function into
  `Except String _`.  An `.error` result models an aborted transaction:
  the database is unchanged (the caller keeps the old `DB` value), matching
  PostgreSQL semantics where an exception escaping the function rolls the
  whole statement back.
* `ORDER BY RANDOM() LIMIT 1` is modelled by an arbitrary selection function
  `choose : List Verse → Option Verse`; theorems assume only `ValidChoose`,
  i.e. that it returns a member of a nonempty list and fails on the empty one.
-/

namespace BibleApp

/-- Row of `roles` (migration `part_014`): id, unique name, hierarchy level. -/
structure Role where
  id : Nat
  name : String
  level : Int
deriving DecidableEq, Repr

/-- Row of `user_roles` (migration `part_014`): a user-role assignment with
optional expiry and an `is_active` flag; `UNIQUE(user_id, role_id)`. -/
structure UserRoleAssignment where
  id : Nat
  user_id : Nat
  role_id : Nat
  expires_at : Option Nat
  is_active : Bool
deriving DecidableEq, Repr

/-- Row of `role_transitions` (migration `part_014`): append-only audit log. -/
structure RoleTransition where
  user_id : Nat
  old_role_id : Option Nat
  new_role_id : Nat
  changed_by : Nat
  reason : Option String
deriving DecidableEq, Repr

/-- Row of `auth.users` as consumed by this layer: id, email, and the two
metadata flags the code reads from `raw_user_meta_data`. -/
structure AuthUser where
  id : Nat
  email : String
  meta_email_verified : Bool
  meta_is_active : Option Bool
deriving DecidableEq, Repr

/-- Row of `user_invitations` (migration `20250323154812_wandering_bar.sql`). -/
structure UserInvitation where
  id : Nat
  email : String
  invited_by : Option Nat
  roles : List String
  status : String
  invitation_token : String
  expires_at : Nat
deriving DecidableEq, Repr

/-- Row of `bible_verses` (migration `part_015`). -/
structure Verse where
  id : Nat
  verse_text : String
deriving DecidableEq, Repr

/-- Row of `verse_history` (SQL block inside `src/hooks/useAuth.ts`):
`UNIQUE(user_id, verse_id)`. -/
structure VerseHistoryRow where
  user_id : Nat
  verse_id : Nat
deriving DecidableEq, Repr

/-- The database state visible to this layer. -/
structure DB where
  roles : List Role
  user_roles : List UserRoleAssignment
  role_transitions : List RoleTransition
  auth_users : List AuthUser
  user_invitations : List UserInvitation
  bible_verses : List Verse
  verse_history : List VerseHistoryRow
deriving DecidableEq, Repr

/-- `has_admin_access()` from `20250323154812_wandering_bar.sql` lines 71-83:
`EXISTS (SELECT 1 FROM user_roles ur JOIN roles r ON r.id = ur.role_id
WHERE ur.user_id = auth.uid() AND r.name = 'admin' AND ur.is_active = true)`.
Note: the source checks `is_active` only; it has no `expires_at` condition.
With a null `auth.uid()` the `EXISTS` matches nothing, so the result is
false. -/
def has_admin_access (db : DB) (uid : Option Nat) : Bool :=
  match uid with
  | none => false
  | some u =>
      db.user_roles.any fun ur =>
        ur.user_id == u && ur.is_active &&
          db.roles.any fun r => r.id == ur.role_id && r.name == "admin"

/-- `has_role(user_id, role_name)` from `src/unnamed/part_014` lines 138-151;
unlike `has_admin_access` it also requires
`(ur.expires_at IS NULL OR ur.expires_at > now())`. -/
def has_role (db : DB) (now : Nat) (user_id : Nat) (role_name : String) : Bool :=
  db.user_roles.any fun ur =>
    ur.user_id == user_id && ur.is_active &&
      (match ur.expires_at with
       | none => true
       | some t => now < t) &&
      db.roles.any fun r => r.id == ur.role_id && r.name == role_name

/-- The spec glossary's notion (stated from the spec, for claim statements
only): an assignment is effective iff it is active and unexpired. -/
def effectiveAssignment (now : Nat) (ur : UserRoleAssignment) : Bool :=
  ur.is_active &&
    match ur.expires_at with
    | none => true
    | some t => now < t

/-- The role named `admin` exists for the assignment in `db.roles`. -/
def adminRoleOf (db : DB) (ur : UserRoleAssignment) : Bool :=
  db.roles.any fun r => r.id == ur.role_id && r.name == "admin"

/-- Row of the materialized view `auth_users_view` (final definition in
`20250323154812_wandering_bar.sql`, lines 225-254).  `roles` keeps the SQL
`array_agg(DISTINCT r.name)` shape: a user with no role assignments gets the
single element `none` (SQL `{NULL}`). -/
structure DirectoryEntry where
  id : Nat
  email : String
  is_active : Bool
  roles : List (Option String)
  has_pending_invitation : Bool
deriving DecidableEq, Repr

/-- The `EXISTS (SELECT 1 FROM user_invitations ui WHERE ui.email = au.email
AND ui.status = 'pending')` subquery of `auth_users_view`.  The source has no
condition on `expires_at`. -/
def pendingInvitationFor (db : DB) (email : String) : Bool :=
  db.user_invitations.any fun ui => ui.email == email && ui.status == "pending"

/-- `CASE WHEN au.raw_user_meta_data->>'is_active' = 'false' THEN false ELSE
true END`. -/
def metaIsActive (au : AuthUser) : Bool :=
  !(au.meta_is_active == some false)

/-- `LEFT JOIN roles r ON r.id = ur.role_id`: the name of the joined role,
`none` when no `roles` row matches. -/
def roleNameOf (db : DB) (rid : Nat) : Option String :=
  (db.roles.find? fun r => r.id == rid).map Role.name

/-- One group of `auth_users_view` for the identity `au`:
`LEFT JOIN user_roles ur ON ur.user_id = au.id` produces one joined row per
assignment (or a single all-NULL row when the user has none);
`WHERE ur.is_active = true OR ur.is_active IS NULL` keeps the all-NULL row and
the active assignments; a user all of whose assignments are inactive has no
surviving joined row and drops out of the view entirely (`none`). -/
def viewRow (db : DB) (au : AuthUser) : Option DirectoryEntry :=
  let asg := db.user_roles.filter fun ur => ur.user_id == au.id
  let kept := asg.filter fun ur => ur.is_active
  if asg.isEmpty then
    some { id := au.id, email := au.email, is_active := metaIsActive au,
           roles := [none],
           has_pending_invitation := pendingInvitationFor db au.email }
  else if kept.isEmpty then
    none
  else
    some { id := au.id, email := au.email, is_active := metaIsActive au,
           roles := (kept.map fun ur => roleNameOf db ur.role_id).dedup,
           has_pending_invitation := pendingInvitationFor db au.email }

/-- The materialized view `auth_users_view` as a query over the base tables
(the projection the refresh trigger rebuilds). -/
def auth_users_view (db : DB) : List DirectoryEntry :=
  db.auth_users.filterMap (viewRow db)

/-- `get_users()` from `20250323154812_wandering_bar.sql` lines 86-95:
`IF has_admin_access() THEN RETURN QUERY SELECT * FROM auth_users_view ELSE
RAISE EXCEPTION 'Access denied'`. -/
def get_users (db : DB) (uid : Option Nat) : Except String (List DirectoryEntry) :=
  if has_admin_access db uid then .ok (auth_users_view db)
  else .error "Access denied"

/-- `has_admin_access` is exactly the existence of an active (expiry ignored)
admin assignment for the caller. -/
lemma has_admin_access_iff (db : DB) (u : Nat) :
    has_admin_access db (some u) = true ↔
      ∃ ur ∈ db.user_roles,
        ur.user_id = u ∧ ur.is_active = true ∧ adminRoleOf db ur = true := by
  simp only [has_admin_access, adminRoleOf, List.any_eq_true, Bool.and_eq_true,
    beq_iff_eq]
  constructor
  · rintro ⟨ur, hmem, ⟨⟨hu, hact⟩, r, hr, hrid, hname⟩⟩
    exact ⟨ur, hmem, hu, hact, r, hr, hrid, hname⟩
  · rintro ⟨ur, hmem, hu, hact, r, hr, hrid, hname⟩
    exact ⟨ur, hmem, ⟨⟨hu, hact⟩, r, hr, hrid, hname⟩⟩

/-- Concrete scenario: at time `now = 10`, user 7's only role assignment is
the admin role with `is_active = true` but `expires_at = 5`, i.e. expired. -/
def expiredAdminAssignment : UserRoleAssignment :=
  { id := 1, user_id := 7, role_id := 1, expires_at := some 5, is_active := true }

/-- Database holding only that expired-but-active admin assignment. -/
def expiredAdminDB : DB :=
  { roles := [{ id := 1, name := "admin", level := 100 }]
    user_roles := [expiredAdminAssignment]
    role_transitions := []
    auth_users := [{ id := 7, email := "sam@x.com", meta_email_verified := false,
                     meta_is_active := none }]
    user_invitations := []
    bible_verses := []
    verse_history := [] }

/-- C1 counterexample: at `now = 10` the sole assignment of user 7 is the
admin role, `is_active = true`, `expires_at = 5` which lies in the past, so it
is not effective in the spec's sense — yet `has_admin_access` returns `true`,
because the source checks only `is_active` and the role name.  The claim says
it must return `false` on the basis of an expired assignment. -/
theorem C1_counterexample :
    expiredAdminDB.user_roles = [expiredAdminAssignment] ∧
    expiredAdminAssignment.expires_at = some 5 ∧
    expiredAdminAssignment.is_active = true ∧
    adminRoleOf expiredAdminDB expiredAdminAssignment = true ∧
    effectiveAssignment 10 expiredAdminAssignment = false ∧
    has_admin_access expiredAdminDB (some 7) = true := by
  decide

/-- C1 (amended): `has_admin_access()` counts every assignment with
`is_active = true` whose role is named `admin`, regardless of `expires_at`;
an expired but active admin assignment still yields admin access (the expiry
check appears only in `has_role`, not in `has_admin_access`). -/
theorem C1_expired_active_admin_assignment_grants_access
    (db : DB) (u : Nat) (ur : UserRoleAssignment)
    (hmem : ur ∈ db.user_roles) (huser : ur.user_id = u)
    (hact : ur.is_active = true) (hadm : adminRoleOf db ur = true) :
    has_admin_access db (some u) = true :=
  (has_admin_access_iff db u).mpr ⟨ur, hmem, huser, hact, hadm⟩

/-- Witness for C1's amended theorem at the concrete expired assignment. -/
theorem C1_witness : has_admin_access expiredAdminDB (some 7) = true :=
  C1_expired_active_admin_assignment_grants_access expiredAdminDB 7
    expiredAdminAssignment (by decide) rfl rfl (by decide)

/-- C4 counterexample: the caller (user 7 of `expiredAdminDB`, at `now = 10`)
has no effective admin assignment — its only assignment is expired — yet
`get_users` does not raise: it returns the full projection.  The claim says a
caller without an effective admin role gets an access-denied error. -/
theorem C4_counterexample :
    effectiveAssignment 10 expiredAdminAssignment = false ∧
    expiredAdminDB.user_roles = [expiredAdminAssignment] ∧
    get_users expiredAdminDB (some 7) =
      .ok [{ id := 7, email := "sam@x.com", is_active := true,
             roles := [some "admin"], has_pending_invitation := false }] :=
  ⟨by decide, by decide, rfl⟩

/-- C4 (amended): `get_users()` raises `Access denied` exactly when the caller
has no *active* admin assignment (expiry is not consulted); when the caller
has one, it returns every row of `auth_users_view`. -/
theorem C4_get_users_gated_on_active_admin (db : DB) (u : Nat) :
    ((¬ ∃ ur ∈ db.user_roles,
        ur.user_id = u ∧ ur.is_active = true ∧ adminRoleOf db ur = true) →
      get_users db (some u) = .error "Access denied") ∧
    ((∃ ur ∈ db.user_roles,
        ur.user_id = u ∧ ur.is_active = true ∧ adminRoleOf db ur = true) →
      get_users db (some u) = .ok (auth_users_view db)) := by
  constructor
  · intro h
    have hfalse : has_admin_access db (some u) = false := by
      rcases Bool.eq_false_or_eq_true (has_admin_access db (some u)) with ht | hf
      · exact absurd ((has_admin_access_iff db u).mp ht) h
      · exact hf
    simp [get_users, hfalse]
  · intro h
    have htrue : has_admin_access db (some u) = true :=
      (has_admin_access_iff db u).mpr h
    simp [get_users, htrue]

/-- Witness for C4's amended theorem: an admin caller receives the full
projection, a caller absent from `user_roles` receives the error. -/
theorem C4_witness :
    get_users expiredAdminDB (some 7) = .ok (auth_users_view expiredAdminDB) :=
  (C4_get_users_gated_on_active_admin expiredAdminDB 7).2
    ⟨expiredAdminAssignment, by decide, rfl, rfl, by decide⟩

/-- Every view row carries its identity's email and the pending-invitation
flag computed for that email. -/
lemma viewRow_fields (db : DB) (au : AuthUser) (e : DirectoryEntry)
    (h : viewRow db au = some e) :
    e.email = au.email ∧
      e.has_pending_invitation = pendingInvitationFor db au.email := by
  simp only [viewRow] at h
  rcases Bool.eq_false_or_eq_true
      ((db.user_roles.filter fun ur => ur.user_id == au.id).isEmpty)
    with hb1 | hb1
  · rw [if_pos hb1] at h
    cases h
    exact ⟨rfl, rfl⟩
  · rw [if_neg (by rw [hb1]; exact Bool.false_ne_true)] at h
    rcases Bool.eq_false_or_eq_true
        (((db.user_roles.filter fun ur => ur.user_id == au.id).filter
          fun ur => ur.is_active).isEmpty)
      with hb2 | hb2
    · rw [if_pos hb2] at h
      cases h
    · rw [if_neg (by rw [hb2]; exact Bool.false_ne_true)] at h
      cases h
      exact ⟨rfl, rfl⟩

/-- An invitation with `status = 'pending'` whose `expires_at = 5` is already
past at `now = 10`. -/
def staleInvitation : UserInvitation :=
  { id := 1, email := "e@x.com", invited_by := none, roles := ["user"],
    status := "pending", invitation_token := "tok1", expires_at := 5 }

/-- Database with one identity and only the stale pending invitation. -/
def staleInvitationDB : DB :=
  { roles := []
    user_roles := []
    role_transitions := []
    auth_users := [{ id := 3, email := "e@x.com", meta_email_verified := false,
                     meta_is_active := none }]
    user_invitations := [staleInvitation]
    bible_verses := []
    verse_history := [] }

/-- C9 counterexample: at `now = 10` the only invitation for `e@x.com` has
`expires_at = 5`, i.e. it is expired, so no non-expired pending invitation
exists — yet the rebuilt view row for that identity has
`has_pending_invitation = true`: the `EXISTS` subquery in the source tests
`status = 'pending'` only and never looks at `expires_at`. -/
theorem C9_counterexample :
    staleInvitationDB.user_invitations = [staleInvitation] ∧
    staleInvitation.status = "pending" ∧
    staleInvitation.expires_at = 5 ∧
    staleInvitation.expires_at ≤ 10 ∧
    auth_users_view staleInvitationDB =
      [{ id := 3, email := "e@x.com", is_active := true, roles := [none],
         has_pending_invitation := true }] := by
  exact ⟨rfl, rfl, rfl, by decide, rfl⟩

/-- C9 (amended): in every rebuilt projection row, `has_pending_invitation`
is true exactly when some invitation with `status = 'pending'` matches the
identity's email — `expires_at` plays no part, so invitations already past
their expiry still set the flag. -/
theorem C9_pending_flag_ignores_expiry (db : DB) (e : DirectoryEntry)
    (he : e ∈ auth_users_view db) :
    e.has_pending_invitation = true ↔
      ∃ ui ∈ db.user_invitations,
        ui.email = e.email ∧ ui.status = "pending" := by
  obtain ⟨au, hau, hrow⟩ := List.mem_filterMap.mp he
  obtain ⟨hmail, hflag⟩ := viewRow_fields db au e hrow
  rw [hflag, hmail, pendingInvitationFor]
  simp only [List.any_eq_true, Bool.and_eq_true, beq_iff_eq]

/-- Witness for C9's amended theorem at the stale-invitation database. -/
theorem C9_witness :
    ({ id := 3, email := "e@x.com", is_active := true, roles := [none],
       has_pending_invitation := true } : DirectoryEntry).has_pending_invitation
      = true :=
  (C9_pending_flag_ignores_expiry staleInvitationDB _ (by decide)).mpr
    ⟨staleInvitation, by decide, rfl, rfl⟩

/-- The one-off role-assignment `DO` block at the end of
`20250323154812_wandering_bar.sql` (lines 268-322): look up the user by the
literal email and the admin role by name, raise if either is missing,
**delete** every `user_roles` row of the user, insert one new active admin
assignment, and append one `role_transitions` row that names no old role.
The block is a single transaction: `.ok` carries both changes, `.error`
carries none.  After the delete, the new insert cannot violate
`UNIQUE(user_id, role_id)`, so no failure path remains. -/
def assign_admin_role_block (db : DB) : Except String DB :=
  match (db.auth_users.find? fun au => au.email == "sam@reachloud.com").map
      AuthUser.id with
  | none => .error "User not found"
  | some v_user_id =>
    match (db.roles.find? fun r => r.name == "admin").map Role.id with
    | none => .error "Admin role not found"
    | some v_admin_role_id =>
      .ok { db with
            user_roles :=
              (db.user_roles.filter fun a => a.user_id != v_user_id) ++
                [{ id := db.user_roles.length, user_id := v_user_id,
                   role_id := v_admin_role_id, expires_at := none,
                   is_active := true }]
            role_transitions :=
              db.role_transitions ++
                [{ user_id := v_user_id, old_role_id := none,
                   new_role_id := v_admin_role_id, changed_by := v_user_id,
                   reason := some "Initial admin role assignment" }] }

/-- Sam's pre-existing active staff assignment. -/
def samStaffAssignment : UserRoleAssignment :=
  { id := 5, user_id := 2, role_id := 9, expires_at := none, is_active := true }

/-- Database where the targeted user holds an active staff role before the
assignment block runs. -/
def samDB : DB :=
  { roles := [{ id := 1, name := "admin", level := 100 },
              { id := 9, name := "staff", level := 50 }]
    user_roles := [samStaffAssignment]
    role_transitions := []
    auth_users := [{ id := 2, email := "sam@reachloud.com",
                     meta_email_verified := false, meta_is_active := none }]
    user_invitations := []
    bible_verses := []
    verse_history := [] }

/-- C6 counterexample: before the block, user 2 holds an active staff
assignment (role 9).  The block succeeds, but afterwards no row with role 9
exists at all — the prior assignment was deleted, not deactivated — and the
appended transition records `old_role_id = none` although a prior role
existed.  The claim says existing assignments are deactivated (kept with
`is_active = false`) and the prior role is captured. -/
theorem C6_counterexample :
    samDB.user_roles = [samStaffAssignment] ∧
    samStaffAssignment.is_active = true ∧
    assign_admin_role_block samDB =
      .ok { samDB with
            user_roles := [{ id := 1, user_id := 2, role_id := 1,
                             expires_at := none, is_active := true }]
            role_transitions :=
              [{ user_id := 2, old_role_id := none, new_role_id := 1,
                 changed_by := 2,
                 reason := some "Initial admin role assignment" }] } ∧
    ((assign_admin_role_block samDB).toOption.map fun db =>
        db.user_roles.any fun a => a.role_id == 9) = some false := by
  exact ⟨rfl, rfl, rfl, rfl⟩

/-- C6 (amended): when the targeted user and the admin role both exist, the
block **deletes** (does not deactivate) every existing assignment row of the
user, inserts exactly one new active admin assignment, and appends exactly
one RoleTransition whose `old_role_id` is null regardless of any prior role,
whose actor is the user, and whose reason is the fixed string; assignment
change and audit record land in the same atomic result. -/
theorem C6_block_deletes_and_audits_without_old_role
    (db : DB) (au : AuthUser) (r : Role)
    (hau : db.auth_users.find? (fun a => a.email == "sam@reachloud.com")
      = some au)
    (hr : db.roles.find? (fun x => x.name == "admin") = some r) :
    assign_admin_role_block db =
      .ok { db with
            user_roles :=
              (db.user_roles.filter fun a => a.user_id != au.id) ++
                [{ id := db.user_roles.length, user_id := au.id,
                   role_id := r.id, expires_at := none, is_active := true }]
            role_transitions :=
              db.role_transitions ++
                [{ user_id := au.id, old_role_id := none, new_role_id := r.id,
                   changed_by := au.id,
                   reason := some "Initial admin role assignment" }] } := by
  unfold assign_admin_role_block
  rw [hau, hr]
  rfl

/-- Witness for C6's amended theorem at the staff-role database. -/
theorem C6_witness :
    assign_admin_role_block samDB =
      .ok { samDB with
            user_roles := [{ id := 1, user_id := 2, role_id := 1,
                             expires_at := none, is_active := true }]
            role_transitions :=
              [{ user_id := 2, old_role_id := none, new_role_id := 1,
                 changed_by := 2,
                 reason := some "Initial admin role assignment" }] } :=
  C6_block_deletes_and_audits_without_old_role samDB
    { id := 2, email := "sam@reachloud.com", meta_email_verified := false,
      meta_is_active := none }
    { id := 1, name := "admin", level := 100 } (by decide) (by decide)

/-- Error text of the NOT NULL violation raised when an invitation is
inserted with a null email (`user_invitations.email` is `NOT NULL`). -/
def nullEmailError : String :=
  "null value in column email of relation user_invitations violates not-null constraint"

/-- The row inserted into `user_invitations` by `invite_users` and
`bulk_create_users`: `status` takes the table default / explicit value
`'pending'`, `expires_at` the default `now() + interval '7 days'`, and
`invitation_token` the generated random token (modelled by the parameter
`gen`, indexed by the current table size). -/
def mkInvitation (gen : Nat → String) (now : Nat) (uid : Option Nat)
    (roles : List String) (db : DB) (e : String) : UserInvitation :=
  { id := db.user_invitations.length, email := e, invited_by := uid,
    roles := roles, status := "pending",
    invitation_token := gen db.user_invitations.length,
    expires_at := now + 604800 }

/-- The `FOREACH` loop of `invite_users`
(`20250323154812_wandering_bar.sql` lines 190-208).  The loop body has **no**
exception handler, so the first failing insert (here: a null array element
violating `NOT NULL`) raises out of the function; the surrounding transaction
rolls back, which the `.error` result models (all earlier inserts are
discarded with it). -/
def invite_users_loop (gen : Nat → String) (now : Nat) (uid : Option Nat)
    (roles : List String) :
    List (Option String) → DB → Except String (List UserInvitation × DB)
  | [], db => .ok ([], db)
  | none :: _, _ => .error nullEmailError
  | some e :: rest, db =>
      let inv := mkInvitation gen now uid roles db e
      let db2 := { db with user_invitations := db.user_invitations ++ [inv] }
      match invite_users_loop gen now uid roles rest db2 with
      | .error msg => .error msg
      | .ok (invs, db3) => .ok (inv :: invs, db3)

/-- `invite_users(emails, roles)` from `20250323154812_wandering_bar.sql`
lines 173-212: admin check first, then the insert loop. -/
def invite_users (gen : Nat → String) (now : Nat) (uid : Option Nat)
    (emails : List (Option String)) (roles : List String) (db : DB) :
    Except String (List UserInvitation × DB) :=
  if !has_admin_access db uid then .error "Access denied"
  else invite_users_loop gen now uid roles emails db

/-- A fixed token generator for concrete runs. -/
def exGen : Nat → String := fun i => "tok" ++ toString i

/-- C7 counterexample: an admin caller invites `a@x.com` together with a null
array element.  The whole call raises the NOT NULL violation: no per-email
result is produced and the invitation for `a@x.com` is rolled back with the
transaction, contradicting the claim that one email's failure does not abort
or roll back the others. -/
theorem C7_counterexample :
    has_admin_access expiredAdminDB (some 7) = true ∧
    invite_users exGen 100 (some 7) [some "a@x.com", none] ["user"]
        expiredAdminDB
      = .error nullEmailError := by
  exact ⟨rfl, rfl⟩

/-- C7 (amended), part 1 of the loop behaviour: when every email is non-null,
each gets one invitation row with `status = 'pending'`, the supplied roles
and a 7-day expiry, appended to the table in input order. -/
lemma invite_users_loop_all_valid (gen : Nat → String) (now : Nat)
    (uid : Option Nat) (roles : List String) (es : List String) :
    ∀ db, ∃ invs db3,
      invite_users_loop gen now uid roles (es.map some) db = .ok (invs, db3) ∧
      invs.map UserInvitation.email = es ∧
      (∀ inv ∈ invs, inv.status = "pending" ∧ inv.roles = roles ∧
        inv.expires_at = now + 604800) ∧
      db3.user_invitations = db.user_invitations ++ invs := by
  induction es with
  | nil =>
      intro db
      exact ⟨[], db, rfl, rfl, fun inv h => absurd h (List.not_mem_nil inv),
        by simp⟩
  | cons e rest ih =>
      intro db
      obtain ⟨invs, db3, hloop, hmails, hfields, happ⟩ :=
        ih { db with
             user_invitations :=
               db.user_invitations ++ [mkInvitation gen now uid roles db e] }
      refine ⟨mkInvitation gen now uid roles db e :: invs, db3, ?_, ?_, ?_, ?_⟩
      · simp only [List.map_cons, invite_users_loop, hloop]
      · simp [hmails, mkInvitation]
      · intro inv hmem
        rcases List.mem_cons.mp hmem with hmem | hmem
        · subst hmem
          exact ⟨rfl, rfl, rfl⟩
        · exact hfields inv hmem
      · simpa using happ

/-- C7 (amended), part 2 of the loop behaviour: a null element anywhere makes
the whole loop fail with the NOT NULL violation. -/
lemma invite_users_loop_aborts (gen : Nat → String) (now : Nat)
    (uid : Option Nat) (roles : List String) (emails : List (Option String))
    (hnull : none ∈ emails) :
    ∀ db, invite_users_loop gen now uid roles emails db
      = .error nullEmailError := by
  induction emails with
  | nil => cases hnull
  | cons e rest ih =>
      intro db
      cases e with
      | none => rfl
      | some s =>
          have hrest : none ∈ rest := by
            rcases List.mem_cons.mp hnull with h | h
            · cases h
            · exact h
          simp only [invite_users_loop, ih hrest]

/-- C7 (amended): after the admin check, `invite_users` inserts one pending
invitation per email and returns them in order; it reports no per-email
status, and a single failing email (a null element) aborts the entire call —
the error rolls back every earlier insert, so no other email is processed.
Per-email isolation exists only in `bulk_create_users`. -/
theorem C7_invite_users_all_or_nothing (gen : Nat → String) (now : Nat)
    (uid : Option Nat) (roles : List String) (db : DB)
    (hadmin : has_admin_access db uid = true) :
    (∀ es : List String,
      ∃ invs db3,
        invite_users gen now uid (es.map some) roles db = .ok (invs, db3) ∧
        invs.map UserInvitation.email = es ∧
        (∀ inv ∈ invs, inv.status = "pending" ∧ inv.roles = roles ∧
          inv.expires_at = now + 604800) ∧
        db3.user_invitations = db.user_invitations ++ invs) ∧
    (∀ emails : List (Option String), none ∈ emails →
      invite_users gen now uid emails roles db = .error nullEmailError) := by
  constructor
  · intro es
    obtain ⟨invs, db3, h⟩ := invite_users_loop_all_valid gen now uid roles es db
    exact ⟨invs, db3, by simpa [invite_users, hadmin] using h.1, h.2.1, h.2.2.1,
      h.2.2.2⟩
  · intro emails hnull
    simp [invite_users, hadmin, invite_users_loop_aborts gen now uid roles
      emails hnull db]

/-- Witness for C7's amended theorem: with an admin caller, a null element
aborts the whole call. -/
theorem C7_witness :
    invite_users exGen 100 (some 7) [some "a@x.com", none] ["user"]
        expiredAdminDB
      = .error nullEmailError :=
  (C7_invite_users_all_or_nothing exGen 100 (some 7) ["user"] expiredAdminDB
    rfl).2 [some "a@x.com", none] (by decide)

/-- The per-email outcome described by the claim for `bulk_create_users`:
each email is judged independently against the pre-existing identities — an
existing identity yields the descriptive `User already exists` error row, a
null element yields its NOT NULL error row, anything else a success row. -/
def bulkRowClaim (users : List AuthUser) (e : Option String) :
    Option String × String × String :=
  match e with
  | none => (none, "error", nullEmailError)
  | some s =>
      if users.any fun au => au.email == s then
        (some s, "error", "User already exists")
      else
        (some s, "success", "Invitation sent")

/-- The `FOREACH` loop of `bulk_create_users` (`src/unnamed/part_012` lines
37-79).  Each iteration runs in its own `BEGIN ... EXCEPTION` sub-block: an
existing identity yields an error row via the explicit check, a failing
insert (null email) is caught by the handler and yields an error row, and in
both cases the loop continues with the next email. -/
def bulk_create_users_loop (gen : Nat → String) (now : Nat) (uid : Option Nat)
    (roles : List String) :
    List (Option String) → DB → List (Option String × String × String) × DB
  | [], db => ([], db)
  | none :: rest, db =>
      let r := bulk_create_users_loop gen now uid roles rest db
      ((none, "error", nullEmailError) :: r.1, r.2)
  | some s :: rest, db =>
      if db.auth_users.any fun au => au.email == s then
        let r := bulk_create_users_loop gen now uid roles rest db
        ((some s, "error", "User already exists") :: r.1, r.2)
      else
        let inv := mkInvitation gen now uid roles db s
        let db2 := { db with user_invitations := db.user_invitations ++ [inv] }
        let r := bulk_create_users_loop gen now uid roles rest db2
        ((some s, "success", "Invitation sent") :: r.1, r.2)

/-- `bulk_create_users(user_emails, user_roles)` from `src/unnamed/part_012`
lines 15-81: admin check first, then the per-email loop. -/
def bulk_create_users (gen : Nat → String) (now : Nat) (uid : Option Nat)
    (user_emails : List (Option String)) (user_roles : List String) (db : DB) :
    Except String (List (Option String × String × String) × DB) :=
  if !has_admin_access db uid then .error "Access denied"
  else .ok (bulk_create_users_loop gen now uid user_roles user_emails db)

/-- The loop never touches `auth.users`, and its result rows are exactly the
independent per-email outcomes against the starting identities. -/
lemma bulk_create_users_loop_rows (gen : Nat → String) (now : Nat)
    (uid : Option Nat) (roles : List String)
    (emails : List (Option String)) :
    ∀ db, (bulk_create_users_loop gen now uid roles emails db).1
        = emails.map (bulkRowClaim db.auth_users) ∧
      (bulk_create_users_loop gen now uid roles emails db).2.auth_users
        = db.auth_users := by
  induction emails with
  | nil => intro db; exact ⟨rfl, rfl⟩
  | cons e rest ih =>
      intro db
      cases e with
      | none =>
          obtain ⟨h1, h2⟩ := ih db
          exact ⟨by simp [bulk_create_users_loop, h1, bulkRowClaim], h2⟩
      | some s =>
          by_cases hex : (db.auth_users.any fun au => au.email == s) = true
          · obtain ⟨h1, h2⟩ := ih db
            constructor
            · simp [bulk_create_users_loop, hex, h1, bulkRowClaim]
            · simp [bulk_create_users_loop, hex, h2]
          · have hex' : (db.auth_users.any fun au => au.email == s) = false :=
              Bool.not_eq_true _ ▸ Bool.eq_false_iff.mpr hex
            obtain ⟨h1, h2⟩ := ih
              { db with user_invitations := db.user_invitations ++
                  [mkInvitation gen now uid roles db s] }
            constructor
            · simp [bulk_create_users_loop, hex', h1, bulkRowClaim]
            · simp [bulk_create_users_loop, hex', h2]

/-- C8: for an admin caller the call succeeds and returns exactly one row per
input email, each computed independently from that email and the pre-existing
identities: an email with an existing identity yields the descriptive
`User already exists` error row (not a skip), a null email yields its own
error row, and neither kind of failure prevents the remaining emails from
being processed (every later email still gets its normal row). -/
theorem C8_bulk_create_users_per_email (gen : Nat → String) (now : Nat)
    (uid : Option Nat) (emails : List (Option String))
    (user_roles : List String) (db : DB)
    (hadmin : has_admin_access db uid = true) :
    ∃ db3, bulk_create_users gen now uid emails user_roles db
      = .ok (emails.map (bulkRowClaim db.auth_users), db3) := by
  obtain ⟨h1, _⟩ := bulk_create_users_loop_rows gen now uid user_roles emails db
  refine ⟨(bulk_create_users_loop gen now uid user_roles emails db).2, ?_⟩
  simp [bulk_create_users, hadmin, ← h1]

/-- Witness for C8 at a concrete run: new email succeeds, null email errors,
existing email reports `User already exists`, and all three rows appear. -/
theorem C8_witness :
    ∃ db3, bulk_create_users exGen 100 (some 7)
        [some "new@x.com", none, some "sam@x.com"] ["user"] expiredAdminDB
      = .ok ([(some "new@x.com", "success", "Invitation sent"),
              (none, "error", nullEmailError),
              (some "sam@x.com", "error", "User already exists")], db3) :=
  C8_bulk_create_users_per_email exGen 100 (some 7)
    [some "new@x.com", none, some "sam@x.com"] ["user"] expiredAdminDB rfl

/-- The `WHERE` clause of the invitation lookup in `verify_user_email`
(`src/unnamed/part_012` lines 96-101): email equals the identity's email
(never true when the subquery yields NULL), token matches, status is
`pending`, and `expires_at > now()`. -/
def invitationMatches (now : Nat) (uemail : Option String) (token : String)
    (ui : UserInvitation) : Bool :=
  (match uemail with
   | none => false
   | some e => ui.email == e) &&
    ui.invitation_token == token && ui.status == "pending" &&
    decide (now < ui.expires_at)

/-- Role ids produced by
`FROM unnest(v_invitation.roles) role_name JOIN roles r ON r.name = role_name`:
an inner join, so a name with no `roles` row contributes nothing. -/
def grantedRoleIds (db : DB) (names : List String) : List Nat :=
  names.filterMap fun nm => (db.roles.find? fun r => r.name == nm).map Role.id

/-- The `user_roles` rows built by the grant `INSERT ... SELECT` of
`verify_user_email`: one active, never-expiring row per granted role id. -/
def mkGrantRows (uid : Nat) : Nat → List Nat → List UserRoleAssignment
  | _, [] => []
  | base, rid :: rest =>
      { id := base, user_id := uid, role_id := rid, expires_at := none,
        is_active := true } :: mkGrantRows uid (base + 1) rest

/-- Row-by-row execution of a multi-row `INSERT` into `user_roles`: each row
is checked against everything already in the table (including rows inserted
earlier in the same statement) under `UNIQUE(user_id, role_id)`; a conflict
raises and aborts the statement. -/
def insertUserRoles :
    List UserRoleAssignment → List UserRoleAssignment →
      Except String (List UserRoleAssignment)
  | table, [] => .ok table
  | table, a :: rest =>
      if table.any fun b => b.user_id == a.user_id && b.role_id == a.role_id
      then .error "duplicate key value violates unique constraint"
      else insertUserRoles (table ++ [a]) rest

/-- `verify_user_email(user_id, verification_token)` from
`src/unnamed/part_012` lines 84-137: find a matching pending unexpired
invitation for the identity's email; if none, return `false`; otherwise mark
it accepted, set the identity's `email_verified` metadata flag, insert one
active `user_roles` row per invitation role name that exists in `roles`
(inner join semantics), and return `true`.  No `role_transitions` row is
written.  An `.error` result (a unique-constraint conflict during the grant)
models the raised exception rolling the whole call back. -/
def verify_user_email (now : Nat) (user_id : Nat) (verification_token : String)
    (db : DB) : Except String (Bool × DB) :=
  let uemail := (db.auth_users.find? fun au => au.id == user_id).map
    AuthUser.email
  match db.user_invitations.find?
      (invitationMatches now uemail verification_token) with
  | none => .ok (false, db)
  | some inv =>
      let invitations2 := db.user_invitations.map fun ui =>
        if ui.id == inv.id then { ui with status := "accepted" } else ui
      let users2 := db.auth_users.map fun au =>
        if au.id == user_id then { au with meta_email_verified := true } else au
      match insertUserRoles db.user_roles
          (mkGrantRows user_id db.user_roles.length
            (grantedRoleIds db inv.roles)) with
      | .error msg => .error msg
      | .ok table2 =>
          .ok (true, { db with user_invitations := invitations2,
                               auth_users := users2, user_roles := table2 })

/-- Membership in the grant rows determines user and role id. -/
lemma mem_mkGrantRows (uid : Nat) (a : UserRoleAssignment) :
    ∀ base ids, a ∈ mkGrantRows uid base ids →
      a.user_id = uid ∧ a.role_id ∈ ids := by
  intro base ids
  induction ids generalizing base with
  | nil => intro h; cases h
  | cons rid rest ih =>
      intro h
      rcases List.mem_cons.mp h with h | h
      · subst h
        exact ⟨rfl, List.mem_cons_self _ _⟩
      · obtain ⟨h1, h2⟩ := ih (base + 1) h
        exact ⟨h1, List.mem_cons_of_mem _ h2⟩

/-- The grant insert succeeds when the granted role ids are distinct and none
of them is already assigned to the user: the result is the old table with the
new rows appended. -/
lemma insertUserRoles_mkGrantRows_ok (uid : Nat) (ids : List Nat) :
    ∀ base table, ids.Nodup →
      (∀ b ∈ table, b.user_id = uid → b.role_id ∉ ids) →
      insertUserRoles table (mkGrantRows uid base ids)
        = .ok (table ++ mkGrantRows uid base ids) := by
  induction ids with
  | nil => intro base table _ _; simp [mkGrantRows, insertUserRoles]
  | cons rid rest ih =>
      intro base table hnodup hfresh
      have hcheck : (table.any fun b =>
          b.user_id == uid && b.role_id == rid) = false := by
        rcases Bool.eq_false_or_eq_true
            (table.any fun b => b.user_id == uid && b.role_id == rid)
          with ht | hf
        · exfalso
          obtain ⟨b, hb, hbeq⟩ := List.any_eq_true.mp ht
          simp only [Bool.and_eq_true, beq_iff_eq] at hbeq
          exact hfresh b hb hbeq.1 (hbeq.2 ▸ List.mem_cons_self _ _)
        · exact hf
      have hrest : insertUserRoles
          (table ++ [{ id := base, user_id := uid, role_id := rid,
                       expires_at := none, is_active := true }])
          (mkGrantRows uid (base + 1) rest)
          = .ok ((table ++ [{ id := base, user_id := uid, role_id := rid,
                              expires_at := none, is_active := true }]) ++
              mkGrantRows uid (base + 1) rest) := by
        apply ih (base + 1)
        · exact (List.nodup_cons.mp hnodup).2
        · intro b hb hbuid
          rcases List.mem_append.mp hb with hb | hb
          · exact fun hmem => hfresh b hb hbuid (List.mem_cons_of_mem _ hmem)
          · rcases List.mem_singleton.mp hb with rfl
            exact (List.nodup_cons.mp hnodup).1
      simp only [mkGrantRows, insertUserRoles, hcheck, Bool.false_eq_true,
        if_false, hrest, List.append_assoc, List.singleton_append]

/-- Entries on which `f` fails can be filtered away without changing
`filterMap`. -/
lemma filterMap_filter_of_none {α β : Type} (f : α → Option β) (p : α → Bool)
    (h : ∀ a, p a = false → f a = none) :
    ∀ l : List α, l.filterMap f = (l.filter p).filterMap f := by
  intro l
  induction l with
  | nil => rfl
  | cons a rest ih =>
      cases hpa : p a with
      | false => simp [List.filter_cons, hpa, List.filterMap_cons, h a hpa, ih]
      | true => simp [List.filter_cons, hpa, List.filterMap_cons, ih]

/-- A role name with no `roles` row contributes nothing to the granted ids:
filtering it out of the invitation's role list changes nothing. -/
lemma grantedRoleIds_filter_missing (db : DB) (x : String)
    (hmissing : ∀ r ∈ db.roles, r.name ≠ x) :
    ∀ names : List String,
      grantedRoleIds db names
        = grantedRoleIds db (names.filter fun nm => nm != x) := by
  have hnone : (db.roles.find? fun r => r.name == x) = none := by
    apply List.find?_eq_none.mpr
    intro r hr
    simp [hmissing r hr]
  intro names
  apply filterMap_filter_of_none
  intro nm hnm
  have : nm = x := by
    rcases Bool.eq_false_or_eq_true (nm == x) with ht | hf
    · exact beq_iff_eq.mp ht
    · simp [bne, hf] at hnm
  rw [this, hnone]
  rfl

/-- Every granted id comes from an existing role whose name the invitation
lists; the missing name `x` is never among them. -/
lemma grantedRoleIds_sound (db : DB) (names : List String) (x : String)
    (hmissing : ∀ r ∈ db.roles, r.name ≠ x) :
    ∀ rid ∈ grantedRoleIds db names,
      ∃ r ∈ db.roles, r.id = rid ∧ r.name ∈ names ∧ r.name ≠ x := by
  intro rid hrid
  obtain ⟨nm, hnm, hfind⟩ := List.mem_filterMap.mp hrid
  obtain ⟨r, hfr, hrid'⟩ := Option.map_eq_some'.mp hfind
  have hrmem : r ∈ db.roles := List.mem_of_find?_eq_some hfr
  have hp := List.find?_some hfr
  simp only [beq_iff_eq] at hp
  exact ⟨r, hrmem, hrid', hp ▸ hnm, hmissing r hrmem⟩

/-- C10: a successful `verify_user_email` whose matched invitation lists a
role name `x` with no `roles` row silently drops `x` (inner join), grants
exactly the listed names that do exist, still returns `true`, raises no
error, and records nothing about `x` — in particular the audit table
`role_transitions` is untouched. -/
theorem C10_verify_user_email_skips_missing_role
    (now user_id : Nat) (token : String) (db : DB) (inv : UserInvitation)
    (x : String)
    (hfind : db.user_invitations.find?
        (invitationMatches now
          ((db.auth_users.find? fun au => au.id == user_id).map AuthUser.email)
          token) = some inv)
    (_hx : x ∈ inv.roles)
    (hmissing : ∀ r ∈ db.roles, r.name ≠ x)
    (hnodup : (grantedRoleIds db inv.roles).Nodup)
    (hfresh : ∀ b ∈ db.user_roles, b.user_id = user_id →
      b.role_id ∉ grantedRoleIds db inv.roles) :
    ∃ db', verify_user_email now user_id token db = .ok (true, db') ∧
      db'.user_roles = db.user_roles ++
        mkGrantRows user_id db.user_roles.length (grantedRoleIds db inv.roles) ∧
      grantedRoleIds db inv.roles
        = grantedRoleIds db (inv.roles.filter fun nm => nm != x) ∧
      (∀ rid ∈ grantedRoleIds db inv.roles,
        ∃ r ∈ db.roles, r.id = rid ∧ r.name ∈ inv.roles ∧ r.name ≠ x) ∧
      db'.role_transitions = db.role_transitions := by
  have hins := insertUserRoles_mkGrantRows_ok user_id
    (grantedRoleIds db inv.roles) db.user_roles.length db.user_roles
    hnodup hfresh
  refine ⟨{ db with
      user_invitations := db.user_invitations.map fun ui =>
        if ui.id == inv.id then { ui with status := "accepted" } else ui
      auth_users := db.auth_users.map fun au =>
        if au.id == user_id then { au with meta_email_verified := true }
        else au
      user_roles := db.user_roles ++
        mkGrantRows user_id db.user_roles.length
          (grantedRoleIds db inv.roles) },
    ?_, rfl, grantedRoleIds_filter_missing db x hmissing inv.roles,
    grantedRoleIds_sound db inv.roles x hmissing, rfl⟩
  simp only [verify_user_email, hfind, hins]

/-- Concrete scenario for C10: the invitation lists `user` and `ghost`, only
`user` exists in `roles`. -/
def ghostInvitation : UserInvitation :=
  { id := 4, email := "v@x.com", invited_by := none,
    roles := ["user", "ghost"], status := "pending",
    invitation_token := "tokv", expires_at := 500 }

/-- Database for the C10 witness run. -/
def ghostDB : DB :=
  { roles := [{ id := 10, name := "user", level := 10 }]
    user_roles := []
    role_transitions := []
    auth_users := [{ id := 6, email := "v@x.com", meta_email_verified := false,
                     meta_is_active := none }]
    user_invitations := [ghostInvitation]
    bible_verses := []
    verse_history := [] }

/-- Witness for C10: verifying with the matching token grants only the
existing `user` role, skips `ghost`, and returns `true`. -/
theorem C10_witness :
    ∃ db', verify_user_email 100 6 "tokv" ghostDB = .ok (true, db') ∧
      db'.user_roles = ghostDB.user_roles ++
        mkGrantRows 6 ghostDB.user_roles.length
          (grantedRoleIds ghostDB ghostInvitation.roles) ∧
      grantedRoleIds ghostDB ghostInvitation.roles
        = grantedRoleIds ghostDB
            (ghostInvitation.roles.filter fun nm => nm != "ghost") ∧
      (∀ rid ∈ grantedRoleIds ghostDB ghostInvitation.roles,
        ∃ r ∈ ghostDB.roles, r.id = rid ∧ r.name ∈ ghostInvitation.roles ∧
          r.name ≠ "ghost") ∧
      db'.role_transitions = ghostDB.role_transitions :=
  C10_verify_user_email_skips_missing_role 100 6 "tokv" ghostDB
    ghostInvitation "ghost" (by decide) (by decide) (by decide) (by decide)
    (by decide)

/-- Abstraction of `ORDER BY RANDOM() LIMIT 1`: any selection function that
returns a member of a nonempty list and nothing on the empty list. -/
def ValidChoose (choose : List Verse → Option Verse) : Prop :=
  (∀ l v, choose l = some v → v ∈ l) ∧ ∀ l, l ≠ [] → (choose l).isSome = true

/-- The `verse_history` rows of one user. -/
def userHistory (db : DB) (u : Nat) : List VerseHistoryRow :=
  db.verse_history.filter fun h => h.user_id == u

/-- The verse ids recorded for one user, in insertion order. -/
def userHistIds (db : DB) (u : Nat) : List Nat :=
  (userHistory db u).map VerseHistoryRow.verse_id

/-- The `EXISTS (SELECT 1 FROM verse_history history WHERE history.verse_id =
verses.id AND history.user_id = current_user_id)` subquery of
`get_daily_verse`. -/
def shownToUser (db : DB) (u : Nat) (vid : Nat) : Bool :=
  db.verse_history.any fun h => h.verse_id == vid && h.user_id == u

/-- The candidate rows of the first `SELECT` of `get_daily_verse`: verses
with no history row for the caller. -/
def unshownVerses (db : DB) (u : Nat) : List Verse :=
  db.bible_verses.filter fun v => !shownToUser db u v.id

/-- The final `INSERT INTO verse_history (user_id, verse_id)` of
`get_daily_verse`, under `UNIQUE(user_id, verse_id)`: a duplicate pair
raises (and the transaction rolls back — the `.error` result), otherwise the
row is appended and the verse text returned. -/
def recordShown (u : Nat) (v : Verse) (db : DB) : Except String (String × DB) :=
  if shownToUser db u v.id then
    .error "duplicate key value violates unique constraint"
  else
    .ok (v.verse_text,
      { db with verse_history := db.verse_history ++ [⟨u, v.id⟩] })

/-- `get_daily_verse()` from `src/unnamed/part_008` lines 19-92 (the latest
of the three versions in the repository; the claims cite this one): reject a
null `auth.uid()`; try a random unshown verse; if none, delete the caller's
history and pick from the full set; if still none (empty verse table), raise
`No verses available`; finally record the selection and return its text. -/
def get_daily_verse (choose : List Verse → Option Verse) (uid : Option Nat)
    (db : DB) : Except String (String × DB) :=
  match uid with
  | none => .error "User not authenticated"
  | some u =>
      match choose (unshownVerses db u) with
      | some v => recordShown u v db
      | none =>
          let db1 := { db with
            verse_history := db.verse_history.filter fun h =>
              !(h.user_id == u) }
          match choose db1.bible_verses with
          | some v => recordShown u v db1
          | none => .error "No verses available"

/-- `k` successive `get_daily_verse` calls by the same user, threading the
database and collecting the returned texts; any raised error aborts the
sequence. -/
def iterateDaily (choose : List Verse → Option Verse) (u : Nat) :
    Nat → DB → Except String (List String × DB)
  | 0, db => .ok ([], db)
  | k + 1, db =>
      match get_daily_verse choose (some u) db with
      | .error e => .error e
      | .ok (t, db1) =>
          match iterateDaily choose u k db1 with
          | .error e => .error e
          | .ok (ts, db2) => .ok (t :: ts, db2)

/-- `List.head?` is a valid selection function (used for concrete runs). -/
lemma validChoose_head : ValidChoose fun l => l.head? := by
  constructor
  · intro l v h
    cases l with
    | nil => cases h
    | cons a t =>
        cases h
        exact List.mem_cons_self _ _
  · intro l h
    cases l with
    | nil => exact absurd rfl h
    | cons a t => rfl

/-- A verse id is shown to the user exactly when it is among the user's
recorded ids. -/
lemma shownToUser_iff (db : DB) (u vid : Nat) :
    shownToUser db u vid = true ↔ vid ∈ userHistIds db u := by
  simp only [shownToUser, userHistIds, userHistory, List.any_eq_true,
    List.mem_map, List.mem_filter, Bool.and_eq_true, beq_iff_eq]
  constructor
  · rintro ⟨h, hmem, hvid, hu⟩
    exact ⟨h, ⟨hmem, hu⟩, hvid⟩
  · rintro ⟨h, ⟨hmem, hu⟩, hvid⟩
    exact ⟨h, hmem, hvid, hu⟩

/-- A `Nodup` list included in another is no longer than it. -/
lemma nodup_subset_length_le (l1 l2 : List Nat) (h : l1.Nodup)
    (hs : l1 ⊆ l2) : l1.length ≤ l2.length := by
  have h1 : l1.toFinset.card = l1.length := List.toFinset_card_of_nodup h
  have h2 : l1.toFinset ⊆ l2.toFinset := by
    intro a ha
    simp only [List.mem_toFinset] at ha ⊢
    exact hs ha
  have h3 : l2.toFinset.card ≤ l2.length := l2.toFinset_card_le
  have h4 := Finset.card_le_card h2
  omega

/-- Two `Nodup` lists with `l1 ⊆ l2` and `l2` no longer than `l1` contain
the same elements. -/
lemma subset_rev_of_nodup_lengths (l1 l2 : List Nat) (h1 : l1.Nodup)
    (h2 : l2.Nodup) (hs : l1 ⊆ l2) (hl : l2.length ≤ l1.length) :
    l2 ⊆ l1 := by
  have hsub : l1.toFinset ⊆ l2.toFinset := by
    intro a ha
    simp only [List.mem_toFinset] at ha ⊢
    exact hs ha
  have hcard : l2.toFinset.card ≤ l1.toFinset.card := by
    rw [List.toFinset_card_of_nodup h1, List.toFinset_card_of_nodup h2]
    exact hl
  have heq := Finset.eq_of_subset_of_card_le hsub hcard
  intro a ha
  have : a ∈ l2.toFinset := List.mem_toFinset.mpr ha
  rw [← heq] at this
  exact List.mem_toFinset.mp this

/-- While the user's recorded ids number fewer than the (distinct-id)
verses, some verse is still unshown. -/
lemma unshown_ne_nil_of_lt (db : DB) (u : Nat)
    (hids : (db.bible_verses.map Verse.id).Nodup)
    (hlt : (userHistIds db u).length < db.bible_verses.length) :
    unshownVerses db u ≠ [] := by
  intro hnil
  have hall : ∀ v ∈ db.bible_verses, v.id ∈ userHistIds db u := by
    intro v hv
    have := List.filter_eq_nil_iff.mp hnil v hv
    rcases Bool.eq_false_or_eq_true (shownToUser db u v.id) with ht | hf
    · exact (shownToUser_iff db u v.id).mp ht
    · simp [hf] at this
  have hsub2 : db.bible_verses.map Verse.id ⊆ userHistIds db u := by
    intro vid hvid
    obtain ⟨v, hv, rfl⟩ := List.mem_map.mp hvid
    exact hall v hv
  have hge := nodup_subset_length_le _ _ hids hsub2
  rw [List.length_map] at hge
  omega

/-- Once the user's recorded ids are `Nodup`, drawn from the verse table and
as many as the verses (ids `Nodup` too), every verse is shown and the first
`SELECT` finds nothing. -/
lemma unshown_eq_nil_of_full (db : DB) (u : Nat)
    (hids : (db.bible_verses.map Verse.id).Nodup)
    (hnodup : (userHistIds db u).Nodup)
    (hsub : ∀ vid ∈ userHistIds db u, vid ∈ db.bible_verses.map Verse.id)
    (hlen : db.bible_verses.length ≤ (userHistIds db u).length) :
    unshownVerses db u = [] := by
  apply List.filter_eq_nil_iff.mpr
  intro v hv
  have hmem : v.id ∈ userHistIds db u := by
    apply subset_rev_of_nodup_lengths (userHistIds db u)
      (db.bible_verses.map Verse.id) hnodup hids
      (fun vid hvid => hsub vid hvid)
      (by rw [List.length_map]; exact hlen)
    exact List.mem_map.mpr ⟨v, hv, rfl⟩
  have := (shownToUser_iff db u v.id).mpr hmem
  simp [this]

/-- A valid selection returns nothing on the empty list. -/
lemma choose_nil_eq_none (choose : List Verse → Option Verse)
    (hvc : ValidChoose choose) : choose [] = none := by
  cases hch : choose [] with
  | none => rfl
  | some v => exact absurd (hvc.1 _ _ hch) (List.not_mem_nil v)

/-- One call while some verse is still unshown: it succeeds, selects an
unshown verse and appends exactly one history row for it. -/
lemma get_daily_verse_step (choose : List Verse → Option Verse)
    (hvc : ValidChoose choose) (u : Nat) (db : DB)
    (hne : unshownVerses db u ≠ []) :
    ∃ v db1, get_daily_verse choose (some u) db = .ok (v.verse_text, db1) ∧
      v ∈ db.bible_verses ∧
      v.id ∉ userHistIds db u ∧
      db1.bible_verses = db.bible_verses ∧
      db1.verse_history = db.verse_history ++ [⟨u, v.id⟩] := by
  have hsome := hvc.2 _ hne
  obtain ⟨v, hv⟩ := Option.isSome_iff_exists.mp hsome
  have hmem := hvc.1 _ _ hv
  obtain ⟨hvin, hunshown⟩ := List.mem_filter.mp hmem
  have hshown : shownToUser db u v.id = false := by
    rcases Bool.eq_false_or_eq_true (shownToUser db u v.id) with ht | hf
    · rw [ht] at hunshown
      cases hunshown
    · exact hf
  refine ⟨v, { db with verse_history := db.verse_history ++ [⟨u, v.id⟩] },
    ?_, hvin, ?_, rfl, rfl⟩
  · simp only [get_daily_verse, hv, recordShown, hshown, Bool.false_eq_true,
      if_false]
  · intro hmem'
    rw [(shownToUser_iff db u v.id).mpr hmem'] at hshown
    cases hshown

/-- One call when every verse has been shown: the user's history is wiped,
one verse is picked from the full set and recorded, so the history ends as
that single row. -/
lemma get_daily_verse_reset (choose : List Verse → Option Verse)
    (hvc : ValidChoose choose) (u : Nat) (db : DB)
    (hempty : unshownVerses db u = []) (hver : db.bible_verses ≠ []) :
    ∃ v db1, get_daily_verse choose (some u) db = .ok (v.verse_text, db1) ∧
      v ∈ db.bible_verses ∧
      db1.bible_verses = db.bible_verses ∧
      db1.verse_history =
        (db.verse_history.filter fun h => !(h.user_id == u)) ++ [⟨u, v.id⟩] ∧
      userHistory db1 u = [⟨u, v.id⟩] := by
  have hnone : choose (unshownVerses db u) = none := by
    rw [hempty]
    exact choose_nil_eq_none choose hvc
  have hsome := hvc.2 db.bible_verses hver
  obtain ⟨v, hv⟩ := Option.isSome_iff_exists.mp hsome
  have hvin := hvc.1 _ _ hv
  have hshown0 : shownToUser
      { db with verse_history := db.verse_history.filter fun h =>
          !(h.user_id == u) } u v.id = false := by
    rcases Bool.eq_false_or_eq_true (shownToUser
        { db with verse_history := db.verse_history.filter fun h =>
            !(h.user_id == u) } u v.id) with ht | hf
    · exfalso
      obtain ⟨h, hmem, hpred⟩ := List.any_eq_true.mp ht
      obtain ⟨hmem', hkeep⟩ := List.mem_filter.mp hmem
      simp only [Bool.and_eq_true, beq_iff_eq] at hpred
      rw [hpred.2] at hkeep
      simp at hkeep
    · exact hf
  refine ⟨v, { db with verse_history :=
      (db.verse_history.filter fun h => !(h.user_id == u)) ++ [⟨u, v.id⟩] },
    ?_, hvin, rfl, rfl, ?_⟩
  · simp only [get_daily_verse, hnone, hv, recordShown, hshown0,
      Bool.false_eq_true, if_false]
  · show ((db.verse_history.filter fun h : VerseHistoryRow =>
          !(h.user_id == u)) ++ ([⟨u, v.id⟩] : List VerseHistoryRow)).filter
        (fun h : VerseHistoryRow => h.user_id == u)
      = ([⟨u, v.id⟩] : List VerseHistoryRow)
    rw [List.filter_append]
    have h1 : (db.verse_history.filter fun h => !(h.user_id == u)).filter
        (fun h => h.user_id == u) = [] := by
      apply List.filter_eq_nil_iff.mpr
      intro h hmem
      obtain ⟨_, hkeep⟩ := List.mem_filter.mp hmem
      simp only [Bool.not_eq_eq_eq_not, Bool.not_true] at hkeep
      simp [hkeep]
    rw [h1]
    simp

/-- Running `k` calls inside one cycle: all succeed, each adds one new
distinct verse id to the user's history, and the verse table is untouched. -/
lemma iterateDaily_within_cycle (choose : List Verse → Option Verse)
    (hvc : ValidChoose choose) (u : Nat) (k : Nat) :
    ∀ db : DB, (db.bible_verses.map Verse.id).Nodup →
      (userHistIds db u).Nodup →
      (∀ vid ∈ userHistIds db u, vid ∈ db.bible_verses.map Verse.id) →
      (userHistIds db u).length + k ≤ db.bible_verses.length →
      ∃ ts dbk, iterateDaily choose u k db = .ok (ts, dbk) ∧
        dbk.bible_verses = db.bible_verses ∧
        ts.length = k ∧
        (userHistIds dbk u).Nodup ∧
        (∀ vid ∈ userHistIds dbk u, vid ∈ db.bible_verses.map Verse.id) ∧
        (userHistIds dbk u).length = (userHistIds db u).length + k := by
  induction k with
  | zero =>
      intro db _ h2 h3 _
      exact ⟨[], db, rfl, rfl, rfl, h2, h3, rfl⟩
  | succ k ih =>
      intro db h1 h2 h3 h4
      have hlt : (userHistIds db u).length < db.bible_verses.length := by
        omega
      have hne := unshown_ne_nil_of_lt db u h1 hlt
      obtain ⟨v, db1, hcall, hvin, hvnot, hbv, hvh⟩ :=
        get_daily_verse_step choose hvc u db hne
      have hids1 : userHistIds db1 u = userHistIds db u ++ [v.id] := by
        simp [userHistIds, userHistory, hvh, List.filter_append]
      have h1' : (db1.bible_verses.map Verse.id).Nodup := by
        rw [hbv]
        exact h1
      have h2' : (userHistIds db1 u).Nodup := by
        rw [hids1, List.nodup_append]
        refine ⟨h2, List.nodup_singleton _, ?_⟩
        intro a ha hb
        rw [List.mem_singleton.mp hb] at ha
        exact hvnot ha
      have h3' : ∀ vid ∈ userHistIds db1 u,
          vid ∈ db1.bible_verses.map Verse.id := by
        rw [hids1, hbv]
        intro vid hvid
        rcases List.mem_append.mp hvid with hvid | hvid
        · exact h3 vid hvid
        · rw [List.mem_singleton.mp hvid]
          exact List.mem_map.mpr ⟨v, hvin, rfl⟩
      have h4' : (userHistIds db1 u).length + k ≤ db1.bible_verses.length := by
        rw [hids1, hbv, List.length_append, List.length_singleton]
        omega
      obtain ⟨ts, dbk, hiter, hbvk, hts, hnk, hsubk, hlenk⟩ :=
        ih db1 h1' h2' h3' h4'
      refine ⟨v.verse_text :: ts, dbk, ?_, by rw [hbvk, hbv], by simp [hts],
        hnk, ?_, ?_⟩
      · simp only [iterateDaily, hcall, hiter]
      · rw [← hbv]
        exact hsubk
      · rw [hlenk, hids1, List.length_append, List.length_singleton]
        omega

/-- C2: with `N ≥ 1` distinct-id verses and empty history, `N` calls all
succeed and leave exactly `N` history rows with `N` distinct verse ids; the
`(N+1)`-th call deletes all the user's rows and inserts one fresh row —
history size becomes 1 — returning a verse drawn from the full set. -/
theorem C2_exhaustion_cycle (choose : List Verse → Option Verse)
    (hvc : ValidChoose choose) (u : Nat) (db : DB) (N : Nat)
    (hN : db.bible_verses.length = N) (hpos : 1 ≤ N)
    (hids : (db.bible_verses.map Verse.id).Nodup)
    (hstart : userHistory db u = []) :
    ∃ ts dbN, iterateDaily choose u N db = .ok (ts, dbN) ∧
      (userHistory dbN u).length = N ∧
      ((userHistory dbN u).map VerseHistoryRow.verse_id).Nodup ∧
      ∃ v db1, get_daily_verse choose (some u) dbN = .ok (v.verse_text, db1) ∧
        v ∈ db.bible_verses ∧
        userHistory db1 u = [⟨u, v.id⟩] := by
  have hids0 : userHistIds db u = [] := by
    simp [userHistIds, hstart]
  have h4 : (userHistIds db u).length + N ≤ db.bible_verses.length := by
    rw [hids0, hN]
    simp
  obtain ⟨ts, dbN, hiter, hbv, hts, hnodupN, hsubN, hlenN⟩ :=
    iterateDaily_within_cycle choose hvc u N db hids
      (by rw [hids0]; exact List.nodup_nil)
      (by rw [hids0]; intro vid h; cases h) h4
  have hlen' : (userHistIds dbN u).length = N := by
    rw [hlenN, hids0]
    simp
  have hidsN : (dbN.bible_verses.map Verse.id).Nodup := by
    rw [hbv]
    exact hids
  have hsubN' : ∀ vid ∈ userHistIds dbN u,
      vid ∈ dbN.bible_verses.map Verse.id := by
    rw [hbv]
    exact hsubN
  have hfull : unshownVerses dbN u = [] :=
    unshown_eq_nil_of_full dbN u hidsN hnodupN hsubN'
      (by rw [hbv, hN, hlen'])
  have hverN : dbN.bible_verses ≠ [] := by
    rw [hbv]
    intro hc
    rw [hc] at hN
    simp at hN
    omega
  obtain ⟨v, db1, hcall, hvin, _, _, hhist1⟩ :=
    get_daily_verse_reset choose hvc u dbN hfull hverN
  refine ⟨ts, dbN, hiter, ?_, hnodupN, v, db1, hcall, ?_, hhist1⟩
  · have := hlen'
    rwa [userHistIds, List.length_map] at this
  · rw [← hbv]
    exact hvin

/-- C3: inside one cycle (any `k ≤ N` calls before the reset can fire, from
empty history) every call succeeds and the history ids — one per call, each
recorded by the `INSERT` for the verse that call returned — are pairwise
distinct: no verse is selected twice.  The selection excludes recorded
verses (`unshownVerses`) and `recordShown` raises on a
`UNIQUE(user_id, verse_id)` violation rather than recording a duplicate. -/
theorem C3_no_repeat_within_cycle (choose : List Verse → Option Verse)
    (hvc : ValidChoose choose) (u : Nat) (db : DB) (N k : Nat)
    (hN : db.bible_verses.length = N)
    (hids : (db.bible_verses.map Verse.id).Nodup)
    (hstart : userHistory db u = []) (hk : k ≤ N) :
    ∃ ts dbk, iterateDaily choose u k db = .ok (ts, dbk) ∧
      ts.length = k ∧
      (userHistory dbk u).length = k ∧
      ((userHistory dbk u).map VerseHistoryRow.verse_id).Nodup := by
  have hids0 : userHistIds db u = [] := by
    simp [userHistIds, hstart]
  obtain ⟨ts, dbk, hiter, _, hts, hnodup, _, hlen⟩ :=
    iterateDaily_within_cycle choose hvc u k db hids
      (by rw [hids0]; exact List.nodup_nil)
      (by rw [hids0]; intro vid h; cases h)
      (by rw [hids0, hN]; simp [hk])
  refine ⟨ts, dbk, hiter, hts, ?_, hnodup⟩
  have : (userHistIds dbk u).length = k := by
    rw [hlen, hids0]
    simp
  rwa [userHistIds, List.length_map] at this

/-- C5: a null `auth.uid()` raises the authentication error before any
mutation (the `.error` result carries no state change); an empty verse set
raises the descriptive `No verses available` error; cycle exhaustion (every
verse shown, table nonempty) is handled by reset-and-retry and returns
normally instead of raising. -/
theorem C5_raise_behaviour (choose : List Verse → Option Verse)
    (hvc : ValidChoose choose) (db : DB) (u : Nat) :
    get_daily_verse choose none db = .error "User not authenticated" ∧
    (db.bible_verses = [] →
      get_daily_verse choose (some u) db = .error "No verses available") ∧
    (unshownVerses db u = [] → db.bible_verses ≠ [] →
      ∃ t db1, get_daily_verse choose (some u) db = .ok (t, db1)) := by
  refine ⟨rfl, ?_, ?_⟩
  · intro hempty
    have hunshown : unshownVerses db u = [] := by
      simp [unshownVerses, hempty]
    have hnone1 : choose (unshownVerses db u) = none := by
      rw [hunshown]
      exact choose_nil_eq_none choose hvc
    simp [get_daily_verse, hnone1, hempty, choose_nil_eq_none choose hvc]
  · intro hfull hver
    obtain ⟨v, db1, hcall, _, _, _, _⟩ :=
      get_daily_verse_reset choose hvc u db hfull hver
    exact ⟨v.verse_text, db1, hcall⟩

/-- Two distinct verses for concrete runs. -/
def verseA : Verse := { id := 1, verse_text := "Be strong and courageous. | Joshua 1:9" }

/-- Second concrete verse. -/
def verseB : Verse := { id := 2, verse_text := "I can do all this. | Philippians 4:13" }

/-- Two-verse database with empty history. -/
def twoVerseDB : DB :=
  { roles := [], user_roles := [], role_transitions := [], auth_users := []
    user_invitations := [], bible_verses := [verseA, verseB]
    verse_history := [] }

/-- Database whose verse table is empty. -/
def noVerseDB : DB :=
  { roles := [], user_roles := [], role_transitions := [], auth_users := []
    user_invitations := [], bible_verses := [], verse_history := [] }

/-- Witness for C2 with `N = 2` and the head-of-list selection. -/
theorem C2_witness :
    ∃ ts dbN, iterateDaily (fun l => l.head?) 1 2 twoVerseDB = .ok (ts, dbN) ∧
      (userHistory dbN 1).length = 2 ∧
      ((userHistory dbN 1).map VerseHistoryRow.verse_id).Nodup ∧
      ∃ v db1, get_daily_verse (fun l => l.head?) (some 1) dbN
          = .ok (v.verse_text, db1) ∧
        v ∈ twoVerseDB.bible_verses ∧
        userHistory db1 1 = [⟨1, v.id⟩] :=
  C2_exhaustion_cycle (fun l => l.head?) validChoose_head 1 twoVerseDB 2
    rfl (by decide) (by decide) rfl

/-- Witness for C3 with a full cycle of `k = N = 2` calls. -/
theorem C3_witness :
    ∃ ts dbk, iterateDaily (fun l => l.head?) 1 2 twoVerseDB = .ok (ts, dbk) ∧
      ts.length = 2 ∧
      (userHistory dbk 1).length = 2 ∧
      ((userHistory dbk 1).map VerseHistoryRow.verse_id).Nodup :=
  C3_no_repeat_within_cycle (fun l => l.head?) validChoose_head 1 twoVerseDB
    2 2 rfl (by decide) rfl (by decide)

/-- Witness for C5: the empty verse table raises the descriptive error. -/
theorem C5_witness :
    get_daily_verse (fun l => l.head?) (some 1) noVerseDB
      = .error "No verses available" :=
  (C5_raise_behaviour (fun l => l.head?) validChoose_head noVerseDB 1).2.1 rfl

end BibleApp
